import Mathlib

/-!
Verification of the AudioStyleNet training orchestration code
(`train_audio_to_image.py` and `solver_gan_old.py`) against its
natural-language specification.

The development shallowly embeds the two solvers:

* `AudioSolver` — the audio-to-latent solver of `train_audio_to_image.py`:
  the cosine learning-rate schedule, the global-step bookkeeping, the
  checkpoint-filename handling (Python `str.split` is modelled character by
  character), the cadence-gated side effects, the CLI argument checks, the
  training loop, and the inference (`test_model`) frame pipeline.
* `GAN` — the GAN solver of `solver_gan_old.py`: per-iteration loss
  bookkeeping of `backward_D`/`backward_G`/`optimize_parameters` (the
  network outputs of one iteration are treated as oracle scalars), the
  epoch metric accumulators with `_zero_running_metrics` and
  `_mean_running_metrics`, the max-gradient-norm tracker, the event trace
  of one optimization step, and the checkpoint paths of `save`.

Scalars produced by the networks are modelled as rationals; the
learning-rate schedule, which the spec treats as exact real arithmetic,
is modelled over the reals.
-/

namespace AudioSolver

/-- Source `Solver.__init__`: `self.lr_rampdown_length = 0.4`. -/
noncomputable def lr_rampdown_length : ℝ := 0.4

/-- Source `Solver.__init__`: `self.lr_rampup_length = 0.1`. -/
noncomputable def lr_rampup_length : ℝ := 0.1

/-- Source `Solver.update_lr`: the learning rate written into the optimizer,
as a function of the initial learning rate and the progress fraction `t`:
`lr_ramp = min(1.0, (1.0 - t) / rampdown)`, then
`lr_ramp = 0.5 - 0.5 * cos(lr_ramp * pi)`, then
`lr_ramp = lr_ramp * min(1.0, t / rampup)`, finally
`lr = initial_lr * lr_ramp`. -/
noncomputable def update_lr (initial_lr t : ℝ) : ℝ :=
  let lr_ramp := min 1.0 ((1.0 - t) / lr_rampdown_length)
  let lr_ramp := 0.5 - 0.5 * Real.cos (lr_ramp * Real.pi)
  let lr_ramp := lr_ramp * min 1.0 (t / lr_rampup_length)
  initial_lr * lr_ramp

end AudioSolver

/-- C1: for every progress fraction `t ∈ [0,1)` and every initial learning
rate, `update_lr` equals
`initial_lr * (0.5 - 0.5*cos(min(1,(1-t)/0.4)*π)) * min(1, t/0.1)`
(the defaults being `rampdown_length = 0.4`, `rampup_length = 0.1`);
in particular `update_lr 0` gives `0` and `update_lr 0.2` gives
`initial_lr`. -/
theorem audio_update_lr_spec (initial_lr t : ℝ) (h0 : 0 ≤ t) (h1 : t < 1) :
    AudioSolver.update_lr initial_lr t =
      initial_lr * (0.5 - 0.5 * Real.cos (min 1 ((1 - t) / 0.4) * Real.pi)) *
        min 1 (t / 0.1) ∧
    AudioSolver.update_lr initial_lr 0 = 0 ∧
    AudioSolver.update_lr initial_lr 0.2 = initial_lr := by
  refine ⟨?_, ?_, ?_⟩
  · unfold AudioSolver.update_lr AudioSolver.lr_rampdown_length
      AudioSolver.lr_rampup_length
    ring
  · unfold AudioSolver.update_lr AudioSolver.lr_rampdown_length
      AudioSolver.lr_rampup_length
    have hz : min (1.0 : ℝ) ((0 : ℝ) / 0.1) = 0 := by norm_num
    rw [hz]
    ring
  · unfold AudioSolver.update_lr AudioSolver.lr_rampdown_length
      AudioSolver.lr_rampup_length
    have hd : min (1.0 : ℝ) ((1.0 - 0.2) / 0.4) = 1 := by
      rw [min_eq_left] <;> norm_num
    have hu : min (1.0 : ℝ) ((0.2 : ℝ) / 0.1) = 1 := by
      rw [min_eq_left] <;> norm_num
    rw [hd, hu]
    norm_num [Real.cos_pi]

/-- Witness for C1 at `initial_lr = 7`, `t = 1/2`. -/
theorem audio_update_lr_spec_witness :
    AudioSolver.update_lr 7 (1/2) =
      7 * (0.5 - 0.5 * Real.cos (min 1 ((1 - 1/2) / 0.4) * Real.pi)) *
        min 1 ((1/2) / 0.1) ∧
    AudioSolver.update_lr 7 0 = 0 ∧
    AudioSolver.update_lr 7 0.2 = 7 :=
  audio_update_lr_spec 7 (1/2) (by norm_num) (by norm_num)

namespace GAN

/-- The mutable scalar state of `GANSolver` that the metric bookkeeping
touches: the per-iteration losses, the epoch accumulators listed in
`epoch_metric_names`, and the global step counter. -/
structure State where
  loss_D_real : ℚ
  loss_D_fake : ℚ
  loss_D_total : ℚ
  loss_G_GAN : ℚ
  loss_G_total : ℚ
  epoch_loss_D_total : ℚ
  epoch_loss_D_fake : ℚ
  epoch_loss_D_real : ℚ
  epoch_loss_G_emotion : ℚ
  epoch_loss_G_pixel : ℚ
  epoch_loss_G_GAN : ℚ
  epoch_acc_G_ : ℚ
  epoch_acc_D_real : ℚ
  epoch_acc_D_fake : ℚ
  epoch_maxNorm_D : ℚ
  epoch_maxNorm_G : ℚ
  global_step : ℕ
deriving DecidableEq

/-- The scalars one iteration's network evaluations produce: the two
discriminator loss values, the generator GAN loss value, and the gradient
L2 norms of the discriminator and generator parameters (one entry per
parameter tensor with a gradient). These are oracle inputs to the
bookkeeping code. -/
structure IterIn where
  loss_D_real : ℚ
  loss_D_fake : ℚ
  loss_G_GAN : ℚ
  normsD : List ℚ
  normsG : List ℚ
deriving DecidableEq

/-- Observable events of one `optimize_parameters` call: forward pass,
gradient zeroing, `criterionGAN` calls (with their target flag,
`discriminator` flag, and — for the fake batch — whether the input was
detached), `backward` calls, and optimizer steps. -/
inductive Ev where
  | forward
  | zeroGradD
  | zeroGradG
  | critDReal (target : Bool) (discFlag : Bool)
  | critDFake (target : Bool) (discFlag : Bool) (detached : Bool)
  | critG (target : Bool) (discFlag : Bool)
  | backwardDReal
  | backwardDFake
  | backwardG
  | stepD
  | stepG
deriving DecidableEq

/-- Source `GANSolver._get_max_grad_norm`: fold the parameter gradient norms over
the running maximum, replacing it whenever a norm exceeds it. -/
def get_max_grad_norm (norms : List ℚ) (current_max : ℚ) : ℚ :=
  norms.foldl (fun cm n => if n > cm then n else cm) current_max

/-- Source `GANSolver.backward_D`: compute `loss_D_real` on the real batch with
target `True` (discriminator flag set), accumulate it; compute
`loss_D_fake` on the detached fake batch with target `False`, accumulate
it; set `loss_D_total = loss_D_fake + loss_D_real` and accumulate it;
then call `backward` on the real loss and on the fake loss. -/
def backward_D (i : IterIn) (s : State) : State × List Ev :=
  let s := { s with loss_D_real := i.loss_D_real }
  let s := { s with epoch_loss_D_real := s.epoch_loss_D_real + s.loss_D_real }
  let s := { s with loss_D_fake := i.loss_D_fake }
  let s := { s with epoch_loss_D_fake := s.epoch_loss_D_fake + s.loss_D_fake }
  let s := { s with loss_D_total := s.loss_D_fake + s.loss_D_real }
  let s := { s with epoch_loss_D_total := s.epoch_loss_D_total + s.loss_D_total }
  (s, [Ev.critDReal true true, Ev.critDFake false true true,
       Ev.backwardDReal, Ev.backwardDFake])

/-- Source `GANSolver.backward_G`: compute the GAN loss on the non-detached fake
batch with target `True` (generator-side call, `discriminator` flag left
`False`), accumulate it, set `loss_G_total = loss_G_GAN` (the pixel and
emotion terms are commented out in the source), and call `backward`. -/
def backward_G (i : IterIn) (s : State) : State × List Ev :=
  let s := { s with loss_G_GAN := i.loss_G_GAN }
  let s := { s with epoch_loss_G_GAN := s.epoch_loss_G_GAN + s.loss_G_GAN }
  let s := { s with loss_G_total := s.loss_G_GAN }
  (s, [Ev.critG true false, Ev.backwardG])

/-- Source `GANSolver.optimize_parameters`: forward; zero the discriminator
gradients, `backward_D`, record the max discriminator gradient norm, step
the discriminator optimizer; zero the generator gradients, `backward_G`,
record the max generator gradient norm, step the generator optimizer. -/
def optimize_parameters (i : IterIn) (s : State) : State × List Ev :=
  let bD := backward_D i s
  let s1 := { bD.1 with
    epoch_maxNorm_D := get_max_grad_norm i.normsD bD.1.epoch_maxNorm_D }
  let bG := backward_G i s1
  let s2 := { bG.1 with
    epoch_maxNorm_G := get_max_grad_norm i.normsG bG.1.epoch_maxNorm_G }
  (s2, [Ev.forward, Ev.zeroGradD] ++ bD.2 ++ [Ev.stepD, Ev.zeroGradG] ++
        bG.2 ++ [Ev.stepG])

/-- Source `GANSolver._zero_running_metrics`: every name in `epoch_metric_names`
(the six epoch loss accumulators, the three accuracy accumulators, and
both max-norm trackers) is set to `0`. -/
def zero_running_metrics (s : State) : State :=
  { s with
    epoch_loss_D_total := 0
    epoch_loss_D_fake := 0
    epoch_loss_D_real := 0
    epoch_loss_G_emotion := 0
    epoch_loss_G_pixel := 0
    epoch_loss_G_GAN := 0
    epoch_acc_G_ := 0
    epoch_acc_D_real := 0
    epoch_acc_D_fake := 0
    epoch_maxNorm_D := 0
    epoch_maxNorm_G := 0 }

/-- Source `GANSolver._mean_running_metrics`: every name in `epoch_metric_names`
— including `epoch_maxNorm_D` and `epoch_maxNorm_G` — is divided by
`len_loader`. -/
def mean_running_metrics (len_loader : ℕ) (s : State) : State :=
  { s with
    epoch_loss_D_total := s.epoch_loss_D_total / len_loader
    epoch_loss_D_fake := s.epoch_loss_D_fake / len_loader
    epoch_loss_D_real := s.epoch_loss_D_real / len_loader
    epoch_loss_G_emotion := s.epoch_loss_G_emotion / len_loader
    epoch_loss_G_pixel := s.epoch_loss_G_pixel / len_loader
    epoch_loss_G_GAN := s.epoch_loss_G_GAN / len_loader
    epoch_acc_G_ := s.epoch_acc_G_ / len_loader
    epoch_acc_D_real := s.epoch_acc_D_real / len_loader
    epoch_acc_D_fake := s.epoch_acc_D_fake / len_loader
    epoch_maxNorm_D := s.epoch_maxNorm_D / len_loader
    epoch_maxNorm_G := s.epoch_maxNorm_G / len_loader }

/-- One batch of the inner loop of `GANSolver.train_model`: increment the
global step, then `optimize_parameters`. -/
def epoch_step (s : State) (i : IterIn) : State :=
  (optimize_parameters i { s with global_step := s.global_step + 1 }).1

/-- One epoch of `GANSolver.train_model`: `_zero_running_metrics`, the
batch loop, then `_mean_running_metrics(len(data_loaders['train']))`,
where `len(data_loaders['train'])` is the number of batches the loop ran. -/
def run_epoch (inputs : List IterIn) (s : State) : State :=
  mean_running_metrics inputs.length
    (inputs.foldl epoch_step (zero_running_metrics s))

end GAN

namespace GAN

theorem epoch_step_D_real (s : State) (i : IterIn) :
    (epoch_step s i).epoch_loss_D_real = s.epoch_loss_D_real + i.loss_D_real := rfl

theorem epoch_step_D_fake (s : State) (i : IterIn) :
    (epoch_step s i).epoch_loss_D_fake = s.epoch_loss_D_fake + i.loss_D_fake := rfl

theorem epoch_step_D_total (s : State) (i : IterIn) :
    (epoch_step s i).epoch_loss_D_total =
      s.epoch_loss_D_total + (i.loss_D_fake + i.loss_D_real) := rfl

theorem epoch_step_G_GAN (s : State) (i : IterIn) :
    (epoch_step s i).epoch_loss_G_GAN = s.epoch_loss_G_GAN + i.loss_G_GAN := rfl

theorem epoch_step_G_pixel (s : State) (i : IterIn) :
    (epoch_step s i).epoch_loss_G_pixel = s.epoch_loss_G_pixel := rfl

theorem epoch_step_G_emotion (s : State) (i : IterIn) :
    (epoch_step s i).epoch_loss_G_emotion = s.epoch_loss_G_emotion := rfl

theorem epoch_step_maxNorm_D (s : State) (i : IterIn) :
    (epoch_step s i).epoch_maxNorm_D =
      get_max_grad_norm i.normsD s.epoch_maxNorm_D := rfl

theorem epoch_step_maxNorm_G (s : State) (i : IterIn) :
    (epoch_step s i).epoch_maxNorm_G =
      get_max_grad_norm i.normsG s.epoch_maxNorm_G := rfl

theorem epoch_step_global_step (s : State) (i : IterIn) :
    (epoch_step s i).global_step = s.global_step + 1 := rfl

theorem foldl_epoch_step_D_real (inputs : List IterIn) (s : State) :
    (inputs.foldl epoch_step s).epoch_loss_D_real =
      s.epoch_loss_D_real + (inputs.map IterIn.loss_D_real).sum := by
  induction inputs generalizing s with
  | nil => simp
  | cons i rest ih =>
    simp [List.foldl_cons, ih, epoch_step_D_real, add_assoc]

theorem foldl_epoch_step_D_fake (inputs : List IterIn) (s : State) :
    (inputs.foldl epoch_step s).epoch_loss_D_fake =
      s.epoch_loss_D_fake + (inputs.map IterIn.loss_D_fake).sum := by
  induction inputs generalizing s with
  | nil => simp
  | cons i rest ih =>
    simp [List.foldl_cons, ih, epoch_step_D_fake, add_assoc]

theorem foldl_epoch_step_D_total (inputs : List IterIn) (s : State) :
    (inputs.foldl epoch_step s).epoch_loss_D_total =
      s.epoch_loss_D_total +
        (inputs.map (fun i => i.loss_D_fake + i.loss_D_real)).sum := by
  induction inputs generalizing s with
  | nil => simp
  | cons i rest ih =>
    simp [List.foldl_cons, ih, epoch_step_D_total, add_assoc]

theorem foldl_epoch_step_G_GAN (inputs : List IterIn) (s : State) :
    (inputs.foldl epoch_step s).epoch_loss_G_GAN =
      s.epoch_loss_G_GAN + (inputs.map IterIn.loss_G_GAN).sum := by
  induction inputs generalizing s with
  | nil => simp
  | cons i rest ih =>
    simp [List.foldl_cons, ih, epoch_step_G_GAN, add_assoc]

theorem foldl_epoch_step_maxNorm_D (inputs : List IterIn) (s : State) :
    (inputs.foldl epoch_step s).epoch_maxNorm_D =
      inputs.foldl (fun m i => get_max_grad_norm i.normsD m) s.epoch_maxNorm_D := by
  induction inputs generalizing s with
  | nil => simp
  | cons i rest ih =>
    simp [List.foldl_cons, ih, epoch_step_maxNorm_D]

theorem foldl_epoch_step_global_step (inputs : List IterIn) (s : State) :
    (inputs.foldl epoch_step s).global_step = s.global_step + inputs.length := by
  induction inputs generalizing s with
  | nil => simp
  | cons i rest ih =>
    simp only [List.foldl_cons, ih, epoch_step_global_step, List.length_cons]
    omega

end GAN

/-- C3: for every summation-accumulated epoch loss metric of the GAN
solver and every epoch of `N ≥ 1` iterations, the value after
`run_epoch` (which zeroes the accumulators before the first batch and
divides by the iteration count after the last batch) equals the
arithmetic mean of the `N` per-iteration values added during that
epoch. -/
theorem gan_epoch_loss_mean (inputs : List GAN.IterIn) (s : GAN.State)
    (h : 1 ≤ inputs.length) :
    (GAN.run_epoch inputs s).epoch_loss_D_real =
      (inputs.map GAN.IterIn.loss_D_real).sum / inputs.length ∧
    (GAN.run_epoch inputs s).epoch_loss_D_fake =
      (inputs.map GAN.IterIn.loss_D_fake).sum / inputs.length ∧
    (GAN.run_epoch inputs s).epoch_loss_D_total =
      (inputs.map (fun i => i.loss_D_fake + i.loss_D_real)).sum / inputs.length ∧
    (GAN.run_epoch inputs s).epoch_loss_G_GAN =
      (inputs.map GAN.IterIn.loss_G_GAN).sum / inputs.length := by
  refine ⟨?_, ?_, ?_, ?_⟩ <;>
    simp [GAN.run_epoch, GAN.mean_running_metrics,
      GAN.foldl_epoch_step_D_real, GAN.foldl_epoch_step_D_fake,
      GAN.foldl_epoch_step_D_total, GAN.foldl_epoch_step_G_GAN,
      GAN.zero_running_metrics]

/-- Witness for C3: a two-iteration epoch with discriminator losses
`(1,2)` and `(3,4)` and generator losses `5` and `7`. -/
theorem gan_epoch_loss_mean_witness :
    (GAN.run_epoch
        [⟨1, 2, 5, [], []⟩, ⟨3, 4, 7, [], []⟩]
        ⟨0,0,0,0,0,0,0,0,0,0,0,0,0,0,0,0,0⟩).epoch_loss_D_real =
      (([⟨1, 2, 5, [], []⟩, ⟨3, 4, 7, [], []⟩] :
          List GAN.IterIn).map GAN.IterIn.loss_D_real).sum / 2 ∧
    (GAN.run_epoch
        [⟨1, 2, 5, [], []⟩, ⟨3, 4, 7, [], []⟩]
        ⟨0,0,0,0,0,0,0,0,0,0,0,0,0,0,0,0,0⟩).epoch_loss_D_fake =
      (([⟨1, 2, 5, [], []⟩, ⟨3, 4, 7, [], []⟩] :
          List GAN.IterIn).map GAN.IterIn.loss_D_fake).sum / 2 ∧
    (GAN.run_epoch
        [⟨1, 2, 5, [], []⟩, ⟨3, 4, 7, [], []⟩]
        ⟨0,0,0,0,0,0,0,0,0,0,0,0,0,0,0,0,0⟩).epoch_loss_D_total =
      (([⟨1, 2, 5, [], []⟩, ⟨3, 4, 7, [], []⟩] :
          List GAN.IterIn).map (fun i => i.loss_D_fake + i.loss_D_real)).sum / 2 ∧
    (GAN.run_epoch
        [⟨1, 2, 5, [], []⟩, ⟨3, 4, 7, [], []⟩]
        ⟨0,0,0,0,0,0,0,0,0,0,0,0,0,0,0,0,0⟩).epoch_loss_G_GAN =
      (([⟨1, 2, 5, [], []⟩, ⟨3, 4, 7, [], []⟩] :
          List GAN.IterIn).map GAN.IterIn.loss_G_GAN).sum / 2 :=
  gan_epoch_loss_mean
    [⟨1, 2, 5, [], []⟩, ⟨3, 4, 7, [], []⟩]
    ⟨0,0,0,0,0,0,0,0,0,0,0,0,0,0,0,0,0⟩ (by decide)

/-- C4: every `optimize_parameters` call computes `loss_D_real` on the
real batch with target true, `loss_D_fake` on the detached fake batch
with target false, sets `loss_D_total = loss_D_fake + loss_D_real`,
back-propagates the two terms with two separate backward calls that are
adjacent in the event trace (no optimizer step between them), and at
epoch end `epoch_loss_D_total` equals the mean of the per-iteration
`loss_D_total` values. -/
theorem gan_optimize_parameters_spec (i : GAN.IterIn) (s : GAN.State)
    (inputs : List GAN.IterIn) (s₀ : GAN.State) (h : 1 ≤ inputs.length) :
    (GAN.optimize_parameters i s).2 =
      [GAN.Ev.forward, GAN.Ev.zeroGradD,
       GAN.Ev.critDReal true true, GAN.Ev.critDFake false true true,
       GAN.Ev.backwardDReal, GAN.Ev.backwardDFake, GAN.Ev.stepD,
       GAN.Ev.zeroGradG, GAN.Ev.critG true false, GAN.Ev.backwardG,
       GAN.Ev.stepG] ∧
    [GAN.Ev.backwardDReal, GAN.Ev.backwardDFake] <:+:
      (GAN.optimize_parameters i s).2 ∧
    (GAN.optimize_parameters i s).1.loss_D_total =
      i.loss_D_fake + i.loss_D_real ∧
    (GAN.run_epoch inputs s₀).epoch_loss_D_total =
      (inputs.map (fun j => j.loss_D_fake + j.loss_D_real)).sum /
        inputs.length := by
  refine ⟨rfl, ?_, rfl, ?_⟩
  · exact ⟨[GAN.Ev.forward, GAN.Ev.zeroGradD, GAN.Ev.critDReal true true,
      GAN.Ev.critDFake false true true],
      [GAN.Ev.stepD, GAN.Ev.zeroGradG, GAN.Ev.critG true false,
       GAN.Ev.backwardG, GAN.Ev.stepG], rfl⟩
  · simp [GAN.run_epoch, GAN.mean_running_metrics,
      GAN.foldl_epoch_step_D_total, GAN.zero_running_metrics]

/-- Witness for C4 at one concrete iteration and a one-iteration epoch. -/
theorem gan_optimize_parameters_spec_witness :
    (GAN.optimize_parameters ⟨1, 2, 3, [], []⟩
        ⟨0,0,0,0,0,0,0,0,0,0,0,0,0,0,0,0,0⟩).2 =
      [GAN.Ev.forward, GAN.Ev.zeroGradD,
       GAN.Ev.critDReal true true, GAN.Ev.critDFake false true true,
       GAN.Ev.backwardDReal, GAN.Ev.backwardDFake, GAN.Ev.stepD,
       GAN.Ev.zeroGradG, GAN.Ev.critG true false, GAN.Ev.backwardG,
       GAN.Ev.stepG] ∧
    [GAN.Ev.backwardDReal, GAN.Ev.backwardDFake] <:+:
      (GAN.optimize_parameters ⟨1, 2, 3, [], []⟩
        ⟨0,0,0,0,0,0,0,0,0,0,0,0,0,0,0,0,0⟩).2 ∧
    (GAN.optimize_parameters ⟨1, 2, 3, [], []⟩
        ⟨0,0,0,0,0,0,0,0,0,0,0,0,0,0,0,0,0⟩).1.loss_D_total = 2 + 1 ∧
    (GAN.run_epoch [⟨1, 2, 3, [], []⟩]
        ⟨0,0,0,0,0,0,0,0,0,0,0,0,0,0,0,0,0⟩).epoch_loss_D_total =
      (([⟨1, 2, 3, [], []⟩] : List GAN.IterIn).map
        (fun j => j.loss_D_fake + j.loss_D_real)).sum / 1 :=
  gan_optimize_parameters_spec ⟨1, 2, 3, [], []⟩
    ⟨0,0,0,0,0,0,0,0,0,0,0,0,0,0,0,0,0⟩
    [⟨1, 2, 3, [], []⟩] ⟨0,0,0,0,0,0,0,0,0,0,0,0,0,0,0,0,0⟩ (by decide)

/-- C2 fails on the code: `epoch_metric_names` contains `epoch_maxNorm_D`
and `epoch_maxNorm_G`, so `_mean_running_metrics` divides the two
max-norm trackers by the iteration count like every other epoch metric.
In an epoch of two iterations with discriminator gradient norms `4` and
`2`, the running maximum is `4`, but the reported `epoch_maxNorm_D` is
`4 / 2 = 2`. (The reset-to-zero part of the claim does hold:
`zero_running_metrics` puts both trackers back to `0`.) -/
theorem gan_maxnorm_divided_by_len :
    (GAN.run_epoch [⟨0, 0, 0, [4], []⟩, ⟨0, 0, 0, [2], []⟩]
        ⟨0,0,0,0,0,0,0,0,0,0,0,0,0,0,0,0,0⟩).epoch_maxNorm_D = 2 ∧
    GAN.get_max_grad_norm [2] (GAN.get_max_grad_norm [4] 0) = 4 ∧
    (GAN.run_epoch [⟨0, 0, 0, [4], []⟩, ⟨0, 0, 0, [2], []⟩]
        ⟨0,0,0,0,0,0,0,0,0,0,0,0,0,0,0,0,0⟩).epoch_maxNorm_D ≠
      GAN.get_max_grad_norm [2] (GAN.get_max_grad_norm [4] 0) ∧
    (GAN.zero_running_metrics
        ⟨0,0,0,0,0,0,0,0,0,0,0,0,0,0,9,9,0⟩).epoch_maxNorm_D = 0 ∧
    (GAN.zero_running_metrics
        ⟨0,0,0,0,0,0,0,0,0,0,0,0,0,0,9,9,0⟩).epoch_maxNorm_G = 0 := by
  have hmax : GAN.get_max_grad_norm [2] (GAN.get_max_grad_norm [4] 0) = 4 := by
    norm_num [GAN.get_max_grad_norm]
  have hrun : (GAN.run_epoch [⟨0, 0, 0, [4], []⟩, ⟨0, 0, 0, [2], []⟩]
      ⟨0,0,0,0,0,0,0,0,0,0,0,0,0,0,0,0,0⟩).epoch_maxNorm_D = 2 := by
    norm_num [GAN.run_epoch, GAN.mean_running_metrics,
      GAN.epoch_step_maxNorm_D, GAN.zero_running_metrics,
      GAN.get_max_grad_norm]
  refine ⟨hrun, hmax, ?_, rfl, rfl⟩
  rw [hrun, hmax]
  norm_num

namespace PyStr

/-- Helper of `splitF`: prepend a character to the first chunk of a split
result. -/
def consHead (c : Char) : List (List Char) → List (List Char)
  | [] => [[c]]
  | t :: ts => (c :: t) :: ts

/-- Python `str.split(sep)` for a nonempty separator `c0 :: cs`, on
character lists, with an explicit fuel (any fuel of at least the input
length gives the exact Python semantics): scan left to right, and at each
occurrence of the separator emit the chunk read so far and skip the
separator. -/
def splitF (c0 : Char) (cs : List Char) : ℕ → List Char → List (List Char)
  | 0, s => [s]
  | _ + 1, [] => [[]]
  | fuel + 1, c :: rest =>
    if (c0 :: cs) <+: (c :: rest) then
      [] :: splitF c0 cs fuel (rest.drop cs.length)
    else
      consHead c (splitF c0 cs fuel rest)

/-- Python `str.split(sep)` on character lists (the `sep = []` case never
arises: Python rejects an empty separator). -/
def split (sep s : List Char) : List (List Char) :=
  match sep with
  | [] => [s]
  | c0 :: cs => splitF c0 cs s.length s

/-- Python `int()` on a decimal numeral, on character lists. -/
def toNatDigits (ds : List Char) : ℕ :=
  ds.foldl (fun a c => 10 * a + (c.toNat - 48)) 0

/-- Decimal formatting of a natural number (Python `str()` inside an
f-string), with an explicit fuel; any fuel above the number gives the
exact decimal numeral. -/
def natToDigitsF : ℕ → ℕ → List Char
  | 0, _ => []
  | fuel + 1, n =>
    if n < 10 then [Char.ofNat (48 + n)]
    else natToDigitsF fuel (n / 10) ++ [Char.ofNat (48 + n % 10)]

/-- Decimal formatting of a natural number (Python `str()`). -/
def natToDigits (n : ℕ) : List Char := natToDigitsF (n + 1) n

theorem consHead_ne_nil (c : Char) (l : List (List Char)) :
    consHead c l ≠ [] := by
  cases l <;> simp [consHead]

theorem consHead_length (c : Char) (l : List (List Char)) (h : l ≠ []) :
    (consHead c l).length = l.length := by
  cases l with
  | nil => exact absurd rfl h
  | cons t ts => simp [consHead]

theorem splitF_ne_nil (c0 : Char) (cs : List Char) :
    ∀ (f : ℕ) (s : List Char), splitF c0 cs f s ≠ [] := by
  intro f s
  match f, s with
  | 0, s => simp [splitF]
  | f + 1, [] => simp [splitF]
  | f + 1, c :: rest =>
    by_cases h : (c0 :: cs) <+: (c :: rest)
    · simp [splitF, h]
    · simp only [splitF, if_neg h]
      exact consHead_ne_nil c _

theorem splitF_no_occur (c0 : Char) (cs : List Char) (f : ℕ)
    (s : List Char) (h : ¬ (c0 :: cs) <:+: s) :
    splitF c0 cs f s = [s] := by
  induction f generalizing s with
  | zero => rfl
  | succ f ih =>
    match s with
    | [] => rfl
    | c :: rest =>
      have hp : ¬ (c0 :: cs) <+: (c :: rest) := fun hp => h hp.isInfix
      have hr : ¬ (c0 :: cs) <:+: rest := fun hr => h (List.infix_cons hr)
      simp only [splitF, if_neg hp, ih rest hr, consHead]

theorem splitF_two_le (c0 : Char) (cs : List Char) (f : ℕ)
    (s : List Char) (hf : s.length ≤ f) (h : (c0 :: cs) <:+: s) :
    2 ≤ (splitF c0 cs f s).length := by
  induction f generalizing s with
  | zero =>
    have : s = [] := List.length_eq_zero.mp (Nat.le_zero.mp hf)
    subst this
    exact absurd (List.eq_nil_of_infix_nil h) (by simp)
  | succ f ih =>
    match s with
    | [] => exact absurd (List.eq_nil_of_infix_nil h) (by simp)
    | c :: rest =>
      by_cases hp : (c0 :: cs) <+: (c :: rest)
      · simp only [splitF, if_pos hp, List.length_cons]
        have := List.length_pos.mpr (splitF_ne_nil c0 cs f (rest.drop cs.length))
        omega
      · have hr : (c0 :: cs) <:+: rest := by
          rcases List.infix_cons_iff.mp h with h1 | h1
          · exact absurd h1 hp
          · exact h1
        have hlen : rest.length ≤ f := by
          simp only [List.length_cons] at hf; omega
        simp only [splitF, if_neg hp,
          consHead_length c _ (splitF_ne_nil c0 cs f rest)]
        exact ih rest hlen hr

theorem getLastD_consHead (c : Char) (l : List (List Char))
    (h : 2 ≤ l.length) :
    (consHead c l).getLastD [] = l.getLastD [] := by
  match l with
  | [] => simp at h
  | [t] => simp at h
  | t :: t' :: ts => simp [consHead, List.getLastD_cons]

theorem splitF_last_single (c : Char) (f : ℕ) (x y : List Char)
    (hf : (x ++ c :: y).length ≤ f) (hy : c ∉ y) :
    (splitF c [] f (x ++ c :: y)).getLastD [] = y := by
  induction f generalizing x with
  | zero => simp at hf
  | succ f ih =>
    match x with
    | [] =>
      have hp : [c] <+: (c :: y) := ⟨y, rfl⟩
      have hno : ¬ [c] <:+: y := fun hin => hy (hin.subset (by simp))
      simp only [List.nil_append, splitF, if_pos hp, List.length_nil,
        List.drop_zero, splitF_no_occur c [] f y hno, List.getLastD_cons]
      rfl
    | x0 :: x' =>
      have hs : (x0 :: x') ++ c :: y = x0 :: (x' ++ c :: y) := rfl
      rw [hs] at hf ⊢
      have hlen : (x' ++ c :: y).length ≤ f := by
        simp only [List.length_cons] at hf; omega
      by_cases hcx : [c] <+: (x0 :: (x' ++ c :: y))
      · have hx0 : c = x0 := (List.cons_prefix_cons.mp hcx).1
        simp only [splitF, if_pos hcx, List.length_nil, List.drop_zero,
          List.getLastD_cons]
        exact ih x' hlen
      · have hin : [c] <:+: (x' ++ c :: y) := by
          refine ⟨x', y, by simp⟩
        simp only [splitF, if_neg hcx]
        rw [getLastD_consHead x0 _ (splitF_two_le c [] f _ hlen hin)]
        exact ih x' hlen

theorem splitF_head_single (c : Char) (f : ℕ) (x y : List Char)
    (hf : (x ++ c :: y).length ≤ f) (hx : c ∉ x) :
    (splitF c [] f (x ++ c :: y)).headD [] = x := by
  induction f generalizing x with
  | zero => simp at hf
  | succ f ih =>
    match x with
    | [] =>
      have hp : [c] <+: (c :: y) := ⟨y, rfl⟩
      simp [splitF, if_pos hp]
    | x0 :: x' =>
      have hs : (x0 :: x') ++ c :: y = x0 :: (x' ++ c :: y) := rfl
      rw [hs] at hf ⊢
      have hlen : (x' ++ c :: y).length ≤ f := by
        simp only [List.length_cons] at hf; omega
      have hx0 : c ≠ x0 := fun h => hx (h ▸ List.mem_cons_self x0 x')
      have hcx : ¬ [c] <+: (x0 :: (x' ++ c :: y)) := by
        intro hp
        exact hx0 (List.cons_prefix_cons.mp hp).1
      obtain ⟨t, ts, hts⟩ :=
        List.exists_cons_of_ne_nil (splitF_ne_nil c [] f (x' ++ c :: y))
      have hx' : c ∉ x' := fun h => hx (List.mem_cons_of_mem x0 h)
      have hhead := ih x' hlen hx'
      rw [hts] at hhead
      simp only [List.headD_cons] at hhead
      simp only [splitF, if_neg hcx, hts, consHead, List.headD_cons, hhead]

theorem splitF_sep_append (c0 : Char) (cs : List Char) (f : ℕ)
    (ds : List Char) (hf : ((c0 :: cs) ++ ds).length ≤ f)
    (h : ¬ (c0 :: cs) <:+: ds) :
    splitF c0 cs f ((c0 :: cs) ++ ds) = [[], ds] := by
  match f with
  | 0 => simp at hf
  | f + 1 =>
    have hs : (c0 :: cs) ++ ds = c0 :: (cs ++ ds) := rfl
    have hp : (c0 :: cs) <+: c0 :: (cs ++ ds) :=
      List.cons_prefix_cons.mpr ⟨rfl, List.prefix_append cs ds⟩
    rw [hs] at hf ⊢
    simp only [splitF, if_pos hp, List.drop_left,
      splitF_no_occur c0 cs f ds h]

end PyStr

namespace PyStr

theorem toNat_ofNat_digit (d : ℕ) (h : d < 10) :
    (Char.ofNat (48 + d)).toNat = 48 + d := by
  interval_cases d <;> rfl

theorem natToDigitsF_digits (f : ℕ) :
    ∀ n, n < f → ∀ c ∈ natToDigitsF f n, 48 ≤ c.toNat ∧ c.toNat ≤ 57 := by
  induction f with
  | zero => intro n hn; omega
  | succ f ih =>
    intro n _ c hc
    by_cases h10 : n < 10
    · simp only [natToDigitsF, if_pos h10, List.mem_singleton] at hc
      subst hc
      rw [toNat_ofNat_digit n h10]
      omega
    · simp only [natToDigitsF, if_neg h10, List.mem_append,
        List.mem_singleton] at hc
      rcases hc with hc | hc
      · exact ih (n / 10) (by omega) c hc
      · subst hc
        rw [toNat_ofNat_digit (n % 10) (by omega)]
        omega

theorem toNatDigits_append_digit (xs : List Char) (c : Char) :
    toNatDigits (xs ++ [c]) = 10 * toNatDigits xs + (c.toNat - 48) := by
  simp [toNatDigits, List.foldl_append]

theorem toNatDigits_natToDigitsF (f : ℕ) :
    ∀ n, n < f → toNatDigits (natToDigitsF f n) = n := by
  induction f with
  | zero => intro n hn; omega
  | succ f ih =>
    intro n hn
    by_cases h10 : n < 10
    · simp only [natToDigitsF, if_pos h10]
      simp [toNatDigits, toNat_ofNat_digit n h10]
    · simp only [natToDigitsF, if_neg h10, toNatDigits_append_digit,
        ih (n / 10) (by omega), toNat_ofNat_digit (n % 10) (by omega)]
      omega

theorem natToDigits_digits (n : ℕ) :
    ∀ c ∈ natToDigits n, 48 ≤ c.toNat ∧ c.toNat ≤ 57 :=
  natToDigitsF_digits (n + 1) n (Nat.lt_succ_self n)

theorem toNatDigits_natToDigits (n : ℕ) :
    toNatDigits (natToDigits n) = n :=
  toNatDigits_natToDigitsF (n + 1) n (Nat.lt_succ_self n)

end PyStr

namespace AudioSolver

/-- Source expression `int(path.split('/')[-1].split('.')[0].split('model')[-1])` in
`Solver.__init__`: take the last `/`-component of the checkpoint path,
its part before the first `.`, the part after the last `model`, and read
it as a decimal integer. -/
def parse_step (path : String) : ℕ :=
  PyStr.toNatDigits
    ((PyStr.split "model".data
      ((PyStr.split ['.']
        ((PyStr.split ['/'] path.data).getLastD [])).headD [])).getLastD [])

/-- Source `Solver.save`: the checkpoint is written to
`f"{self.args.save_dir}models/model{self.global_step}.pt"`. -/
def save_path (save_dir : String) (global_step : ℕ) : String :=
  save_dir ++ "models/model" ++ ⟨PyStr.natToDigits global_step⟩ ++ ".pt"

/-- Source `Solver.__init__` global-step handling: `self.global_step = 0` and
`self.step_start = 0`; when `args.cont or args.test` both are overwritten
with the integer parsed from the checkpoint filename. -/
def init_steps (cont test : Bool) (model_path : String) : ℕ × ℕ :=
  if cont || test then (parse_step model_path, parse_step model_path)
  else (0, 0)

theorem digit_bounds_notin {ds : List Char}
    (hd : ∀ c ∈ ds, 48 ≤ c.toNat ∧ c.toNat ≤ 57) {c : Char}
    (hc : c.toNat < 48 ∨ 57 < c.toNat) : c ∉ ds := by
  intro hmem
  rcases hd c hmem with ⟨h1, h2⟩
  omega

/-- Parsing the step back out of a saved checkpoint path recovers the
global step that was saved, for every save directory. -/
theorem parse_step_save_path (sd : String) (n : ℕ) :
    parse_step (save_path sd n) = n := by
  have hd := PyStr.natToDigits_digits n
  set ds := PyStr.natToDigits n with hds
  have hslash : ('/' : Char) ∉ "model".data ++ ds ++ ".pt".data := by
    intro hmem
    rcases List.mem_append.mp hmem with hmem | hmem
    · rcases List.mem_append.mp hmem with hmem | hmem
      · revert hmem; decide
      · exact digit_bounds_notin hd (by decide) hmem
    · revert hmem; decide
  have hdot : ('.' : Char) ∉ "model".data ++ ds := by
    intro hmem
    rcases List.mem_append.mp hmem with hmem | hmem
    · revert hmem; decide
    · exact digit_bounds_notin hd (by decide) hmem
  have hmodel : ¬ "model".data <:+: ds := by
    intro hin
    have : ('m' : Char) ∈ ds := hin.subset (by decide)
    exact digit_bounds_notin hd (by decide) this
  have hdata : (save_path sd n).data =
      (sd.data ++ "models".data) ++
        '/' :: ("model".data ++ ds ++ ".pt".data) := by
    simp [save_path, String.data_append, List.append_assoc]
  have hfname :
      (PyStr.split ['/'] (save_path sd n).data).getLastD [] =
        "model".data ++ ds ++ ".pt".data := by
    rw [hdata]
    show (PyStr.splitF '/' [] _ _).getLastD [] = _
    exact PyStr.splitF_last_single '/' _ _ _ (le_refl _) hslash
  have hstem :
      (PyStr.split ['.'] ("model".data ++ ds ++ ".pt".data)).headD [] =
        "model".data ++ ds := by
    have hsplit : "model".data ++ ds ++ ".pt".data =
        ("model".data ++ ds) ++ '.' :: "pt".data := by
      have : ".pt".data = '.' :: "pt".data := by decide
      rw [this]
    rw [hsplit]
    show (PyStr.splitF '.' [] _ _).headD [] = _
    exact PyStr.splitF_head_single '.' _ _ _ (le_refl _) hdot
  have hnum :
      (PyStr.split "model".data ("model".data ++ ds)).getLastD [] = ds := by
    have hm : "model".data = 'm' :: "odel".data := by decide
    show (PyStr.split "model".data ("model".data ++ ds)).getLastD [] = ds
    rw [hm]
    show (PyStr.splitF 'm' "odel".data _ _).getLastD [] = ds
    rw [PyStr.splitF_sep_append 'm' "odel".data _ ds (le_refl _)
      (by rw [← hm]; exact hmodel)]
    rfl
  show PyStr.toNatDigits _ = n
  rw [hfname, hstem, hnum, hds]
  exact PyStr.toNatDigits_natToDigits n

end AudioSolver

namespace AudioSolver

/-- The loop counters of `Solver.train`: the in-run iteration counter
`i_iter`, the solver's `global_step`, the number of `opt.step()` calls
performed, and the number of final (post-loop) `save` calls. -/
structure TrainState where
  i_iter : ℕ
  global_step : ℕ
  opt_steps : ℕ
  final_saves : ℕ
deriving DecidableEq

/-- The body of the inner `for batch in data_loaders['train']` loop:
one optimizer step, then `global_step += 1` and `i_iter += 1`. -/
def run_batch (s : TrainState) : TrainState :=
  { s with
    opt_steps := s.opt_steps + 1
    global_step := s.global_step + 1
    i_iter := s.i_iter + 1 }

/-- The inner `for` loop over the `len` batches the loader yields: run
the body for each batch, breaking as soon as `i_iter == n_iters`. -/
def run_for (n_iters : ℕ) : ℕ → TrainState → TrainState
  | 0, s => s
  | b + 1, s =>
    let s' := run_batch s
    if s'.i_iter = n_iters then s' else run_for n_iters b s'

/-- The outer `while i_iter < n_iters` loop, with an explicit fuel bound
on the number of passes over the loader; `none` means the fuel ran out
before the loop exited. -/
def run_while (n_iters len : ℕ) : ℕ → TrainState → Option TrainState
  | 0, _ => none
  | fuel + 1, s =>
    if s.i_iter < n_iters then run_while n_iters len fuel (run_for n_iters len s)
    else some s

/-- Source `Solver.train`: the while loop followed by the single final
`self.save()` call. -/
def train (n_iters len fuel : ℕ) (s : TrainState) : Option TrainState :=
  (run_while n_iters len fuel s).map
    (fun s' => { s' with final_saves := s'.final_saves + 1 })

theorem run_for_spec (n_iters : ℕ) :
    ∀ (b : ℕ) (s : TrainState), s.i_iter < n_iters →
      (run_for n_iters b s).i_iter = min (s.i_iter + b) n_iters ∧
      (run_for n_iters b s).global_step =
        s.global_step + (min (s.i_iter + b) n_iters - s.i_iter) ∧
      (run_for n_iters b s).opt_steps =
        s.opt_steps + (min (s.i_iter + b) n_iters - s.i_iter) ∧
      (run_for n_iters b s).final_saves = s.final_saves := by
  intro b
  induction b with
  | zero =>
    intro s hs
    have hrun : run_for n_iters 0 s = s := rfl
    rw [hrun]
    refine ⟨?_, ?_, ?_, ?_⟩ <;> omega
  | succ b ih =>
    intro s hs
    have hib0 : (run_batch s).i_iter = s.i_iter + 1 := rfl
    have hgb : (run_batch s).global_step = s.global_step + 1 := rfl
    have hob : (run_batch s).opt_steps = s.opt_steps + 1 := rfl
    have hfb : (run_batch s).final_saves = s.final_saves := rfl
    by_cases hbrk : s.i_iter + 1 = n_iters
    · have hib : (run_batch s).i_iter = n_iters := hbrk
      have hrun : run_for n_iters (b + 1) s = run_batch s := by
        simp only [run_for]
        rw [if_pos hib]
      rw [hrun, hib, hgb, hob, hfb]
      refine ⟨?_, ?_, ?_, ?_⟩ <;> omega
    · have hne : (run_batch s).i_iter ≠ n_iters := hbrk
      have hrun : run_for n_iters (b + 1) s =
          run_for n_iters b (run_batch s) := by
        simp only [run_for]
        rw [if_neg hne]
      have hlt : (run_batch s).i_iter < n_iters := by omega
      rcases ih (run_batch s) hlt with ⟨h1, h2, h3, h4⟩
      have hminEq : min ((run_batch s).i_iter + b) n_iters =
          min (s.i_iter + (b + 1)) n_iters := by
        rw [hib0]
        congr 1
        omega
      have hge : s.i_iter + 1 ≤ min (s.i_iter + (b + 1)) n_iters := by
        rcases Nat.le_total (s.i_iter + (b + 1)) n_iters with h | h
        · rw [Nat.min_eq_left h]; omega
        · rw [Nat.min_eq_right h]; omega
      rw [hrun, h1, h2, h3, h4, hminEq, hib0, hgb, hob, hfb]
      exact ⟨rfl, by omega, by omega, rfl⟩

theorem run_while_exists (n_iters len : ℕ) (hlen : 1 ≤ len) :
    ∀ (d : ℕ) (s : TrainState), s.i_iter ≤ n_iters → n_iters - s.i_iter ≤ d →
      ∃ fuel, run_while n_iters len fuel s =
        some ⟨n_iters, s.global_step + (n_iters - s.i_iter),
          s.opt_steps + (n_iters - s.i_iter), s.final_saves⟩ := by
  intro d
  induction d with
  | zero =>
    intro s hle hd
    have heq : s.i_iter = n_iters := by omega
    refine ⟨1, ?_⟩
    simp only [run_while, if_neg (by omega : ¬ s.i_iter < n_iters)]
    cases s
    simp_all
  | succ d ih =>
    intro s hle hd
    by_cases hlt : s.i_iter < n_iters
    · rcases run_for_spec n_iters len s hlt with ⟨h1, h2, h3, h4⟩
      have hge : s.i_iter + 1 ≤ min (s.i_iter + len) n_iters := by
        rcases Nat.le_total (s.i_iter + len) n_iters with h | h
        · rw [Nat.min_eq_left h]; omega
        · rw [Nat.min_eq_right h]; omega
      have hle2 : min (s.i_iter + len) n_iters ≤ n_iters :=
        Nat.min_le_right _ _
      have hnext : (run_for n_iters len s).i_iter ≤ n_iters := by
        rw [h1]; exact hle2
      have hdec : n_iters - (run_for n_iters len s).i_iter ≤ d := by
        rw [h1]; omega
      rcases ih (run_for n_iters len s) hnext hdec with ⟨fuel, hf⟩
      refine ⟨fuel + 1, ?_⟩
      simp only [run_while, if_pos hlt, hf]
      rw [h1, h2, h3, h4]
      congr 1
      congr 1 <;> omega
    · have heq : s.i_iter = n_iters := by omega
      refine ⟨1, ?_⟩
      simp only [run_while, if_neg hlt]
      cases s
      simp_all

end AudioSolver

/-- C10: for every `n_iters ≥ 1` and every loader yielding `len ≥ 1`
batches per epoch, `Solver.train` starting at `i_iter = 0` terminates
(some fuel makes the while loop exit) having performed exactly `n_iters`
optimizer steps and `n_iters` increments of `global_step`, with exactly
one final checkpoint save; the inner loop caps `i_iter` at `n_iters`
even when batches remain in the epoch (the mid-epoch break); and if the
loader yields no batches, the loop never terminates, whatever the fuel. -/
theorem audio_train_terminates (n_iters len : ℕ) (s : AudioSolver.TrainState)
    (hn : 1 ≤ n_iters) (hlen : 1 ≤ len) (hs : s.i_iter = 0) :
    (∃ fuel s', AudioSolver.train n_iters len fuel s = some s' ∧
      s'.opt_steps = s.opt_steps + n_iters ∧
      s'.global_step = s.global_step + n_iters ∧
      s'.i_iter = n_iters ∧
      s'.final_saves = s.final_saves + 1) ∧
    (∀ b t, t.i_iter < n_iters →
      (AudioSolver.run_for n_iters b t).i_iter = min (t.i_iter + b) n_iters) ∧
    (∀ fuel, AudioSolver.run_while n_iters 0 fuel s = none) := by
  refine ⟨?_, ?_, ?_⟩
  · rcases AudioSolver.run_while_exists n_iters len hlen (n_iters - s.i_iter) s
        (by omega) (le_refl _) with ⟨fuel, hf⟩
    refine ⟨fuel, _, by rw [AudioSolver.train, hf, Option.map_some'], ?_, ?_, ?_, ?_⟩ <;>
      simp [hs]
  · intro b t ht
    exact (AudioSolver.run_for_spec n_iters b t ht).1
  · intro fuel
    induction fuel with
    | zero => rfl
    | succ fuel ih =>
      have h0 : AudioSolver.run_for n_iters 0 s = s := rfl
      simp only [AudioSolver.run_while, if_pos (by omega : s.i_iter < n_iters), h0]
      exact ih

/-- Witness for C10 at `n_iters = 2`, `len = 3`, all counters zero. -/
theorem audio_train_terminates_witness :
    (∃ fuel s', AudioSolver.train 2 3 fuel ⟨0, 0, 0, 0⟩ = some s' ∧
      s'.opt_steps = 0 + 2 ∧
      s'.global_step = 0 + 2 ∧
      s'.i_iter = 2 ∧
      s'.final_saves = 0 + 1) ∧
    (∀ b t, t.i_iter < 2 →
      (AudioSolver.run_for 2 b t).i_iter = min (t.i_iter + b) 2) ∧
    (∀ fuel, AudioSolver.run_while 2 0 fuel ⟨0, 0, 0, 0⟩ = none) :=
  audio_train_terminates 2 3 ⟨0, 0, 0, 0⟩ (by decide) (by decide) rfl

/-- C5: the global step counter starts at 0 in `Solver.__init__` (and in
`GANSolver.__init__`, modelled by any state the caller chooses); it is
incremented exactly once per optimization iteration — by the audio
solver's batch body and by the GAN solver's per-batch step — hence
monotonically increasing; and under `--cont` or `--test` both
`global_step` and `step_start` are parsed from the integer embedded in
the checkpoint filename (`model<step>.pt` inside the save directory) and
are equal to each other on reload: parsing a saved path recovers the
step that was saved. -/
theorem audio_global_step_spec (p : String) (cont test : Bool)
    (sd : String) (n : ℕ) (s : AudioSolver.TrainState) (g : GAN.State)
    (i : GAN.IterIn) (inputs : List GAN.IterIn)
    (h : (cont || test) = true) :
    AudioSolver.init_steps false false p = (0, 0) ∧
    AudioSolver.init_steps cont test p =
      (AudioSolver.parse_step p, AudioSolver.parse_step p) ∧
    (AudioSolver.init_steps cont test p).1 =
      (AudioSolver.init_steps cont test p).2 ∧
    AudioSolver.parse_step (AudioSolver.save_path sd n) = n ∧
    (AudioSolver.run_batch s).global_step = s.global_step + 1 ∧
    (GAN.epoch_step g i).global_step = g.global_step + 1 ∧
    (inputs.foldl GAN.epoch_step g).global_step =
      g.global_step + inputs.length := by
  refine ⟨rfl, ?_, ?_, AudioSolver.parse_step_save_path sd n, rfl, rfl,
    GAN.foldl_epoch_step_global_step inputs g⟩
  · simp [AudioSolver.init_steps, h]
  · simp [AudioSolver.init_steps, h]

/-- Witness for C5 with `--cont` set, checkpoint path `runs/model25.pt`,
a save at step 37 under directory `s/`. -/
theorem audio_global_step_spec_witness :
    AudioSolver.init_steps false false "runs/model25.pt" = (0, 0) ∧
    AudioSolver.init_steps true false "runs/model25.pt" =
      (AudioSolver.parse_step "runs/model25.pt",
       AudioSolver.parse_step "runs/model25.pt") ∧
    (AudioSolver.init_steps true false "runs/model25.pt").1 =
      (AudioSolver.init_steps true false "runs/model25.pt").2 ∧
    AudioSolver.parse_step (AudioSolver.save_path "s/" 37) = 37 ∧
    (AudioSolver.run_batch ⟨0, 0, 0, 0⟩).global_step = 0 + 1 ∧
    (GAN.epoch_step ⟨0,0,0,0,0,0,0,0,0,0,0,0,0,0,0,0,0⟩
      ⟨0, 0, 0, [], []⟩).global_step = 0 + 1 ∧
    (([⟨0, 0, 0, [], []⟩] : List GAN.IterIn).foldl GAN.epoch_step
      ⟨0,0,0,0,0,0,0,0,0,0,0,0,0,0,0,0,0⟩).global_step = 0 + 1 :=
  audio_global_step_spec "runs/model25.pt" true false "s/" 37
    ⟨0, 0, 0, 0⟩ ⟨0,0,0,0,0,0,0,0,0,0,0,0,0,0,0,0,0⟩ ⟨0, 0, 0, [], []⟩
    [⟨0, 0, 0, [], []⟩] rfl

namespace AudioSolver

/-- The four logging/evaluation cadences of the audio solver's CLI. -/
structure Cadences where
  log_train_every : ℕ
  log_val_every : ℕ
  save_every : ℕ
  eval_every : ℕ
deriving DecidableEq

/-- The cadence-gated side effects of one iteration of `Solver.train`. -/
inductive Effect where
  | logTrain
  | logVal
  | saveCkpt
  | evalImages
deriving DecidableEq

/-- The `if not self.args.debug:` block of `Solver.train`: each side
effect fires independently when `global_step` is divisible by its
configured cadence. -/
def iter_effects (debug : Bool) (c : Cadences) (global_step : ℕ) :
    List Effect :=
  if debug then []
  else
    (if global_step % c.log_train_every = 0 then [Effect.logTrain] else []) ++
    (if global_step % c.log_val_every = 0 then [Effect.logVal] else []) ++
    (if global_step % c.save_every = 0 then [Effect.saveCkpt] else []) ++
    (if global_step % c.eval_every = 0 then [Effect.evalImages] else [])

end AudioSolver

/-- C6: with debug mode disabled, each cadence-gated side effect of the
audio training loop — scalar train-loss logging, validation plus
val-loss logging, checkpoint save, qualitative image evaluation — fires
in an iteration exactly when `global_step % N = 0` for its own cadence
`N`, each on its own independent modulus of the global step counter. -/
theorem audio_iter_effects_spec (c : AudioSolver.Cadences)
    (gs : ℕ) (debug : Bool) (h : debug = false) :
    (AudioSolver.Effect.logTrain ∈ AudioSolver.iter_effects debug c gs ↔
      gs % c.log_train_every = 0) ∧
    (AudioSolver.Effect.logVal ∈ AudioSolver.iter_effects debug c gs ↔
      gs % c.log_val_every = 0) ∧
    (AudioSolver.Effect.saveCkpt ∈ AudioSolver.iter_effects debug c gs ↔
      gs % c.save_every = 0) ∧
    (AudioSolver.Effect.evalImages ∈ AudioSolver.iter_effects debug c gs ↔
      gs % c.eval_every = 0) := by
  subst h
  refine ⟨?_, ?_, ?_, ?_⟩ <;>
    · simp only [AudioSolver.iter_effects, Bool.false_eq_true, if_false,
        List.mem_append]
      constructor
      · intro hmem
        rcases hmem with ((hm | hm) | hm) | hm <;>
          · split at hm <;> simp_all
      · intro hmod
        simp [hmod]

/-- Witness for C6 at cadences `(1, 10, 10000, 10000)` and
`global_step = 20`. -/
theorem audio_iter_effects_spec_witness :
    (AudioSolver.Effect.logTrain ∈
        AudioSolver.iter_effects false ⟨1, 10, 10000, 10000⟩ 20 ↔
      20 % 1 = 0) ∧
    (AudioSolver.Effect.logVal ∈
        AudioSolver.iter_effects false ⟨1, 10, 10000, 10000⟩ 20 ↔
      20 % 10 = 0) ∧
    (AudioSolver.Effect.saveCkpt ∈
        AudioSolver.iter_effects false ⟨1, 10, 10000, 10000⟩ 20 ↔
      20 % 10000 = 0) ∧
    (AudioSolver.Effect.evalImages ∈
        AudioSolver.iter_effects false ⟨1, 10, 10000, 10000⟩ 20 ↔
      20 % 10000 = 0) :=
  audio_iter_effects_spec ⟨1, 10, 10000, 10000⟩ 20 false rfl

namespace GAN

/-- Source `GANSolver.__init__`: `self.model_names`. -/
def model_names : List String := ["generator", "discriminator", "classifier"]

/-- Source `GANSolver.save`: for each model name the weights are written to
`os.path.join(self.save_dir, '%s.pt' % name)`. `self.save_dir` is fixed
at construction (one timestamped directory per run); the solver state at
the time of the call — in particular the global step — does not appear
in the path. -/
def save_paths (save_dir : String) (s : State) : List String :=
  model_names.map (fun name => save_dir ++ "/" ++ (name ++ ".pt"))

end GAN

/-- C7 fails on the code for the GAN solver: two `GANSolver.save` calls
in the same run (same `save_dir`, here at global steps 5 and 10) write
the very same files — e.g. `generator.pt` — so the later call overwrites
what the earlier call produced. -/
theorem gan_save_overwrite_cex :
    GAN.save_paths "saves/pix2pix/20200101-000000"
        ⟨0,0,0,0,0,0,0,0,0,0,0,0,0,0,0,0,5⟩ =
      GAN.save_paths "saves/pix2pix/20200101-000000"
        ⟨0,0,0,0,0,0,0,0,0,0,0,0,0,0,0,0,10⟩ ∧
    "saves/pix2pix/20200101-000000/generator.pt" ∈
      GAN.save_paths "saves/pix2pix/20200101-000000"
        ⟨0,0,0,0,0,0,0,0,0,0,0,0,0,0,0,0,5⟩ ∧
    "saves/pix2pix/20200101-000000/generator.pt" ∈
      GAN.save_paths "saves/pix2pix/20200101-000000"
        ⟨0,0,0,0,0,0,0,0,0,0,0,0,0,0,0,0,10⟩ :=
  ⟨rfl, by simp [GAN.save_paths, GAN.model_names],
    by simp [GAN.save_paths, GAN.model_names]⟩

/-- C7 (amended): GAN checkpoints are not immutable — within one run
every `GANSolver.save` call writes the same per-model filenames, so each
later save overwrites the earlier one's files — whereas the audio solver
encodes `global_step` in the filename, so saves at distinct steps are
distinct artifacts. -/
theorem gan_audio_save_artifacts (sd : String) (s₁ s₂ : GAN.State)
    (sd₂ : String) (n₁ n₂ : ℕ) (h : n₁ ≠ n₂) :
    GAN.save_paths sd s₁ = GAN.save_paths sd s₂ ∧
    AudioSolver.save_path sd₂ n₁ ≠ AudioSolver.save_path sd₂ n₂ := by
  refine ⟨rfl, fun heq => h ?_⟩
  have h₁ := AudioSolver.parse_step_save_path sd₂ n₁
  have h₂ := AudioSolver.parse_step_save_path sd₂ n₂
  rw [← h₁, ← h₂, heq]

/-- Witness for the amended C7 at steps 0 and 1. -/
theorem gan_audio_save_artifacts_witness :
    GAN.save_paths "saves/pix2pix/run"
        ⟨0,0,0,0,0,0,0,0,0,0,0,0,0,0,0,0,5⟩ =
      GAN.save_paths "saves/pix2pix/run"
        ⟨0,0,0,0,0,0,0,0,0,0,0,0,0,0,0,0,10⟩ ∧
    AudioSolver.save_path "d/" 0 ≠ AudioSolver.save_path "d/" 1 :=
  gan_audio_save_artifacts "saves/pix2pix/run"
    ⟨0,0,0,0,0,0,0,0,0,0,0,0,0,0,0,0,5⟩
    ⟨0,0,0,0,0,0,0,0,0,0,0,0,0,0,0,0,10⟩ "d/" 0 1 (by decide)

namespace AudioSolver

/-- One frame of `Solver.test_model`: encode the audio features, add the
offset to the fixed target latent, decode through the frozen generator
(audio features, latents and images are abstracted to scalars; the
encoder and decoder are oracle functions). -/
def render_frame (audio_encoder g : ℚ → ℚ) (test_latent audio : ℚ) : ℚ :=
  g (audio_encoder audio + test_latent)

/-- Source `Solver.test_model`: the frame images, in order of the zero-padded
frame index under which they are saved. The `i`-th saved frame is the
rendering of the `i`-th element of the `glob` result — the files are
processed in exactly the order `glob` returned them, with no sorting. -/
def test_frames (audio_encoder g : ℚ → ℚ) (test_latent : ℚ)
    (load : String → ℚ) (globbed : List String) : List ℚ :=
  globbed.map (fun p => render_frame audio_encoder g test_latent (load p))

end AudioSolver

/-- C8 fails on the code: `test_model` iterates over
`glob(test_sentence_path + '*.npy')`, whose order is whatever the file
system enumeration produced — there is no `sorted(...)` call. If the
enumeration yields `["b.npy", "a.npy"]` (with `load` giving `1` for
`a.npy` and `2` for `b.npy`, identity encoder and decoder, zero target
latent), frame `00000` is the rendering of `b.npy` (value `2`), not the
rendering of the lexicographically first file `a.npy` (value `1`). -/
theorem audio_test_frames_unsorted :
    AudioSolver.test_frames id id 0
        (fun p => if p = "a.npy" then 1 else 2) ["b.npy", "a.npy"] = [2, 1] ∧
    ("a.npy" : String) < "b.npy" ∧
    (AudioSolver.test_frames id id 0
        (fun p => if p = "a.npy" then 1 else 2) ["b.npy", "a.npy"])[0]? ≠
      some (AudioSolver.render_frame id id 0
        ((fun p : String => if p = "a.npy" then (1 : ℚ) else 2) "a.npy")) := by
  refine ⟨?_, by simp; decide, ?_⟩
  · simp [AudioSolver.test_frames, AudioSolver.render_frame]
  · simp [AudioSolver.test_frames, AudioSolver.render_frame]

namespace AudioSolver

/-- The CLI flags of `train_audio_to_image.py` that the assert block
reads (`argparse` gives `model_path` the default `None`; `test_latent`
has a string default but can be modelled as absent). -/
structure Args where
  debug : Bool
  test : Bool
  cont : Bool
  model_path : Option String
  test_latent : Option String
deriving DecidableEq

/-- The `if args.cont or args.test:` assert block of `__main__`:
`assert args.model_path is not None` then
`assert args.test_latent is not None`. A failing assert aborts the
program at argument-parsing time, before the solver is constructed and
before any training iteration runs. -/
def parse_args_check (a : Args) : Except String Args :=
  if a.cont || a.test then
    if a.model_path = none then Except.error "model_path is None"
    else if a.test_latent = none then Except.error "test_latent is None"
    else Except.ok a
  else Except.ok a

/-- Source `__main__` after the assert block: the solver trains (rather than
running test mode) only if the checks passed and `--test` is absent.
`false` means no training iteration ever runs. -/
def main_would_train (a : Args) : Bool :=
  match parse_args_check a with
  | Except.error _ => false
  | Except.ok _ => !a.test

end AudioSolver

/-- C9: if `--cont` or `--test` is given and `--model_path` is unset the
program fails at the assert, before any training iteration runs; test
mode additionally requires `--test_latent` to be set; and with neither
flag no check fires (the block is skipped and parsing succeeds). -/
theorem audio_cli_check (a : AudioSolver.Args) :
    ((a.cont || a.test) = true → a.model_path = none →
      (∃ e, AudioSolver.parse_args_check a = Except.error e) ∧
        AudioSolver.main_would_train a = false) ∧
    (a.test = true → a.test_latent = none →
      ∃ e, AudioSolver.parse_args_check a = Except.error e) ∧
    ((a.cont = false ∧ a.test = false) →
      AudioSolver.parse_args_check a = Except.ok a) := by
  refine ⟨?_, ?_, ?_⟩
  · intro hflag hmp
    refine ⟨⟨"model_path is None", ?_⟩, ?_⟩ <;>
      simp [AudioSolver.parse_args_check, AudioSolver.main_would_train,
        hflag, hmp]
  · intro htest htl
    by_cases hmp : a.model_path = none
    · exact ⟨"model_path is None",
        by simp [AudioSolver.parse_args_check, htest, hmp]⟩
    · exact ⟨"test_latent is None",
        by simp [AudioSolver.parse_args_check, htest, hmp, htl]⟩
  · rintro ⟨hc, ht⟩
    simp [AudioSolver.parse_args_check, hc, ht]

/-- Witness for C9: `--test` with no `--model_path` fails; a run with
neither flag passes the check. -/
theorem audio_cli_check_witness :
    (((false : Bool) || true) = true →
      (none : Option String) = none →
      (∃ e, AudioSolver.parse_args_check
          ⟨false, true, false, none, none⟩ = Except.error e) ∧
        AudioSolver.main_would_train
          ⟨false, true, false, none, none⟩ = false) ∧
    ((true : Bool) = true → (none : Option String) = none →
      ∃ e, AudioSolver.parse_args_check
        ⟨false, true, false, none, none⟩ = Except.error e) ∧
    (((false : Bool) = false ∧ (true : Bool) = false) →
      AudioSolver.parse_args_check ⟨false, true, false, none, none⟩ =
        Except.ok ⟨false, true, false, none, none⟩) :=
  audio_cli_check ⟨false, true, false, none, none⟩
